import Mathlib

/-!
Shallow embedding of the midi-mcp-server composition-to-MIDI pipeline
(src/src/index.ts).  JS numbers are modelled as rationals (ℚ), JS
`Math.round` as floor(x + 1/2), the JS `%` operator on integers as the
truncated remainder `Int.tmod`, and optional / possibly-`undefined`
fields as `Option`.
-/

namespace MidiMcp

/-- JS `Math.round`: rounds half toward +∞, i.e. `⌊x + 1/2⌋`. -/
def jsRound (q : ℚ) : ℤ := ⌊q + 1/2⌋

/-- JS `%` on integers: remainder of truncated division (sign follows the
dividend), which is `Int.tmod`. -/
def jsMod (a b : ℤ) : ℤ := Int.tmod a b

/-- JS `a || b` for a possibly-undefined number `a`: `b` when `a` is
`undefined` or `0` (falsy), otherwise the value of `a`. -/
def numOrElse (a : Option ℚ) (b : ℚ) : ℚ :=
  match a with
  | some x => if x = 0 then b else x
  | none => b

/-- JS `a || b` for a possibly-undefined string `a`: `b` when `a` is
`undefined` or `""` (falsy), otherwise the value of `a`. -/
def strOrElse (a : Option String) (b : String) : String :=
  match a with
  | some s => if s = "" then b else s
  | none => b

/-- `pitch: number | string` from the `MidiNote` interface. -/
inductive Pitch where
  | num (n : ℚ)
  | str (s : String)
deriving DecidableEq

/-- A `duration` value as it arrives at runtime: the interface says
`string`, but the handler tolerates numbers and converts them. -/
inductive Duration where
  | num (q : ℚ)
  | str (s : String)
deriving DecidableEq

/-- The `MidiNote` interface of src/src/index.ts. -/
structure MidiNote where
  pitch : Pitch
  beat : Option ℚ
  startTime : Option ℚ
  time : Option ℚ
  duration : Duration
  velocity : Option ℚ
  channel : Option ℤ
deriving DecidableEq

/-- The `MidiTrack` interface. -/
structure MidiTrack where
  name : Option String
  instrument : Option ℤ
  notes : List MidiNote
deriving DecidableEq

/-- The `TimeSignature` interface. -/
structure TimeSignature where
  numerator : ℚ
  denominator : ℚ
deriving DecidableEq

/-- The `MidiComposition` interface.  `bpm` is declared required in the
TypeScript interface but nothing enforces its presence at runtime, so it
is modelled as `Option`, like `tempo`. -/
structure MidiComposition where
  bpm : Option ℚ
  tempo : Option ℚ
  timeSignature : Option TimeSignature
  tracks : List MidiTrack
deriving DecidableEq

/-- `noteToMidiNumber` (src/src/index.ts lines 278-283): returns its
argument in both the number branch and the string branch. -/
def noteToMidiNumber (note : Pitch) : Pitch :=
  match note with
  | .num n => .num n
  | .str s => .str s

/-- The numeric-duration switch in the handler (lines 209-219):
0.125→'32', 0.25→'16', 0.5→'8', 1→'4', 2→'2', default '4'; string
durations are left untouched. -/
def normalizeDuration (d : Duration) : Duration :=
  match d with
  | .num q =>
      if q = 1/8 then .str "32"
      else if q = 1/4 then .str "16"
      else if q = 1/2 then .str "8"
      else if q = 1 then .str "4"
      else if q = 2 then .str "2"
      else .str "4"
  | .str s => .str s

/-- Duration pass of the handler, per note. -/
def normalizeNoteDuration (note : MidiNote) : MidiNote :=
  { note with duration := normalizeDuration note.duration }

/-- The `time`→`startTime` aliasing pass (lines 226-229):
`if ('time' in note && note.startTime === undefined)` copy `time` into
`startTime` and delete `time`; otherwise leave the note alone. -/
def normalizeNoteTime (note : MidiNote) : MidiNote :=
  match note.time, note.startTime with
  | some tv, none => { note with startTime := some tv, time := none }
  | _, _ => note

/-- The handler's two normalization passes over every note of every
track (duration conversion, then time aliasing). -/
def normalizeComposition (c : MidiComposition) : MidiComposition :=
  let c1 := { c with
    tracks := c.tracks.map fun (t : MidiTrack) =>
      { t with notes := t.notes.map normalizeNoteDuration } }
  { c1 with
    tracks := c1.tracks.map fun (t : MidiTrack) =>
      { t with notes := t.notes.map normalizeNoteTime } }

/-- `convertBeatToWait` (lines 285-297): PPQ = 128, adjustedBeat = beat
minus 1, ticks = Math.round(adjustedBeat * PPQ / bpm), returned as the
string `T<ticks>`. -/
def convertBeatToWait (beat bpm : ℚ) : String :=
  "T" ++ toString (jsRound ((beat - 1) * 128 / bpm))

/-- The wait computation inside `createMidiFile` (lines 402-409): when
`beat` is present use `convertBeatToWait(beat, composition.bpm)`,
otherwise `T` ++ Math.round((startTime || 0) * 0.5).  A present `beat`
with an absent `bpm` would produce NaN arithmetic in JS, written out as
the string `TNaN`. -/
def noteWait (bpm : Option ℚ) (note : MidiNote) : String :=
  match note.beat with
  | some b =>
      match bpm with
      | some v => convertBeatToWait b v
      | none => "TNaN"
  | none => "T" ++ toString (jsRound (numOrElse note.startTime 0 * (1/2)))

/-- The channel computation (line 400):
`note.channel !== undefined ? note.channel % 16 : trackIndex % 16`. -/
def noteChannel (trackIndex : ℤ) (note : MidiNote) : ℤ :=
  match note.channel with
  | some ch => jsMod ch 16
  | none => jsMod trackIndex 16

/-- The velocity default (line 399):
`note.velocity !== undefined ? note.velocity : 100`. -/
def noteVelocity (note : MidiNote) : ℚ :=
  match note.velocity with
  | some v => v
  | none => 100

/-- `composition.bpm || composition.tempo || 120` (line 379). -/
def resolvedTempo (c : MidiComposition) : ℚ :=
  numOrElse c.bpm (numOrElse c.tempo 120)

/-- `composition.timeSignature || { numerator: 4, denominator: 4 }`
(line 383). -/
def resolvedTimeSignature (c : MidiComposition) : TimeSignature :=
  match c.timeSignature with
  | some ts => ts
  | none => { numerator := 4, denominator := 4 }

/-- The events `createMidiFile` pushes onto a midi-writer-js track, in
the order and with the parameters the source passes to the library. -/
inductive TrackEvent where
  | trackName (s : String)
  | setTempo (t : ℚ)
  | timeSig (numerator denominator : ℚ)
  | programChange (instrument : ℤ) (channel : ℤ)
  | noteEvent (pitch : Pitch) (duration : Duration) (velocity : ℚ)
      (channel : ℤ) (wait : String)
deriving DecidableEq

/-- The channel argument carried by an event, when it has one. -/
def eventChannel (e : TrackEvent) : Option ℤ :=
  match e with
  | .programChange _ ch => some ch
  | .noteEvent _ _ _ ch _ => some ch
  | _ => none

/-- One `NoteEvent` as built at lines 413-419. -/
def buildNoteEvent (bpm : Option ℚ) (trackIndex : ℤ) (note : MidiNote) :
    TrackEvent :=
  .noteEvent (noteToMidiNumber note.pitch) note.duration
    (noteVelocity note) (noteChannel trackIndex note) (noteWait bpm note)

/-- One track of `createMidiFile` (lines 368-423): optional track name,
tempo, time signature, optional program change on `trackIndex % 16`,
then one note event per note in order. -/
def buildTrack (c : MidiComposition) (trackIndex : ℤ) (t : MidiTrack) :
    List TrackEvent :=
  (match t.name with
   | some n => [TrackEvent.trackName n]
   | none => [])
  ++ [TrackEvent.setTempo (resolvedTempo c),
      TrackEvent.timeSig (resolvedTimeSignature c).numerator
        (resolvedTimeSignature c).denominator]
  ++ (match t.instrument with
      | some i => [TrackEvent.programChange i (jsMod trackIndex 16)]
      | none => [])
  ++ t.notes.map (buildNoteEvent c.bpm trackIndex)

/-- All tracks, in composition order, with their indices. -/
def buildTracks (c : MidiComposition) : List (List TrackEvent) :=
  c.tracks.enum.map fun p => buildTrack c (Int.ofNat p.1) p.2

/-- The ambient process environment read by the output-path logic:
`process.env.HOME`, `process.env.USERPROFILE`, `os.tmpdir()` and which
directories currently exist (for `fs.existsSync`). -/
structure Env where
  home : Option String
  userProfile : Option String
  tmpdir : String
  existingDirs : List String
deriving DecidableEq

/-- Trailing `/` characters of a character list, removed. -/
def dropTrailingSlashes (l : List Char) : List Char :=
  (l.reverse.dropWhile (· = '/')).reverse

/-- The suffix of a character list after its last `/`. -/
def lastComponent (l : List Char) : List Char :=
  (l.reverse.takeWhile (· ≠ '/')).reverse

/-- POSIX `path.isAbsolute`: the path starts with `/`. -/
def isAbsolute (p : String) : Bool :=
  match p.data with
  | [] => false
  | c :: _ => c = '/'

/-- POSIX `path.basename`: trailing slashes ignored, then everything
after the last `/`. -/
def basename (p : String) : String :=
  String.mk (lastComponent (dropTrailingSlashes p.data))

/-- POSIX `path.join` of two segments as used here: concatenation with a
single separating `/` (empty segments ignored). -/
def jsPathJoin (a b : String) : String :=
  if a = "" then b
  else if b = "" then a
  else String.mk (dropTrailingSlashes a.data) ++ "/" ++ b

/-- `process.env.HOME || process.env.USERPROFILE || os.tmpdir()`
(line 434). -/
def safeBaseDir (env : Env) : String :=
  strOrElse env.home (strOrElse env.userProfile env.tmpdir)

/-- The output-path logic of `createMidiFile` (lines 429-441): an
absolute path is used verbatim; a relative path is resolved to
`<safeBaseDir>/midi-files/<basename(outputPath)>`, creating the
`midi-files` directory when it does not exist.  Returns the list of
directories created and the final file path. -/
def resolveOutputPath (env : Env) (outputPath : String) :
    List String × String :=
  if isAbsolute outputPath then ([], outputPath)
  else
    let midiDir := jsPathJoin (safeBaseDir env) "midi-files"
    let created := if midiDir ∈ env.existingDirs then [] else [midiDir]
    (created, jsPathJoin midiDir (basename outputPath))

/-- Observable result of one `createMidiFile` run: the event lists
handed to the midi-writer-js encoder (which are the sole input to the
byte serialization), the path written, and the directories created. -/
structure RunResult where
  tracks : List (List TrackEvent)
  outputFilePath : String
  createdDirs : List String
deriving DecidableEq

/-- `createMidiFile` (lines 355-445) on an already-normalized
composition: build every track's event list, resolve the output path,
and report what would be written where.  `title` is accepted and unused,
as in the source. -/
def createMidiFile (env : Env) (title : String) (c : MidiComposition)
    (outputPath : String) : RunResult :=
  let r := resolveOutputPath env outputPath
  { tracks := buildTracks c
    outputFilePath := r.2
    createdDirs := r.1 }

/-! Concrete values used by witness theorems. -/

/-- A beat-indexed note (beat 3). -/
def noteBeat3 : MidiNote :=
  { pitch := .num 60, beat := some 3, startTime := none, time := none,
    duration := .str "4", velocity := none, channel := none }

/-- A startTime-indexed note (startTime 7). -/
def noteStart7 : MidiNote :=
  { pitch := .num 60, beat := none, startTime := some 7, time := none,
    duration := .str "4", velocity := none, channel := none }

/-- A note carrying both a beat and a startTime. -/
def noteBoth : MidiNote :=
  { pitch := .num 60, beat := some 2, startTime := some 7, time := none,
    duration := .str "4", velocity := none, channel := none }

/-- A note with the legacy `time` field and no `startTime`. -/
def noteLegacy : MidiNote :=
  { pitch := .num 60, beat := none, startTime := none, time := some 2,
    duration := .str "4", velocity := none, channel := none }

/-- A note with both `startTime` and legacy `time`. -/
def noteBothAliases : MidiNote :=
  { pitch := .num 60, beat := none, startTime := some 5, time := some 9,
    duration := .str "4", velocity := none, channel := none }

/-- C1: for every note whose `beat` field is present, the wait offset
used by `createMidiFile` is the tick round(((beat - 1) * 128) / bpm),
the 1-based beat formula at PPQN = 128, scaling inversely with the
composition's bpm. -/
theorem C1_beat_tick_formula (bpm beat : ℚ) (note : MidiNote)
    (hbpm : 0 < bpm) (hbeat : note.beat = some beat) :
    noteWait (some bpm) note =
      "T" ++ toString (jsRound ((beat - 1) * 128 / bpm)) := by
  simp [noteWait, hbeat, convertBeatToWait]

/-- Witness for C1 at beat 3, bpm 128. -/
theorem C1_beat_tick_formula_witness :
    noteWait (some 128) noteBeat3 =
      "T" ++ toString (jsRound ((3 - 1) * 128 / 128)) :=
  C1_beat_tick_formula 128 3 noteBeat3 (by decide) rfl

/-- C2: for every note without a `beat` field, the wait offset used by
`createMidiFile` is the tick round(startTime * 0.5), independent of the
composition's bpm (the bpm is arbitrary on the left and absent on the
right). -/
theorem C2_startTime_tick_formula (bpm : Option ℚ) (note : MidiNote)
    (s : ℚ) (hbeat : note.beat = none) (hs : note.startTime = some s) :
    noteWait bpm note = "T" ++ toString (jsRound (s * (1/2))) := by
  rcases eq_or_ne s 0 with h | h <;>
    simp [noteWait, hbeat, hs, numOrElse, h]

/-- Witness for C2 at startTime 7 (and an absent bpm). -/
theorem C2_startTime_tick_formula_witness :
    noteWait none noteStart7 = "T" ++ toString (jsRound (7 * (1/2))) :=
  C2_startTime_tick_formula none noteStart7 7 rfl rfl

/-- C3: numeric durations are normalized by the fixed table 0.125→"32",
0.25→"16", 0.5→"8", 1→"4", 2→"2", and every other numeric value
normalizes to "4" rather than failing. -/
theorem C3_duration_table (q : ℚ) :
    normalizeDuration (.num 0.125) = .str "32" ∧
    normalizeDuration (.num 0.25) = .str "16" ∧
    normalizeDuration (.num 0.5) = .str "8" ∧
    normalizeDuration (.num 1) = .str "4" ∧
    normalizeDuration (.num 2) = .str "2" ∧
    (q ≠ 0.125 → q ≠ 0.25 → q ≠ 0.5 → q ≠ 1 → q ≠ 2 →
      normalizeDuration (.num q) = .str "4") := by
  refine ⟨?_, ?_, ?_, ?_, ?_, ?_⟩
  · norm_num [normalizeDuration]
  · norm_num [normalizeDuration]
  · norm_num [normalizeDuration]
  · norm_num [normalizeDuration]
  · norm_num [normalizeDuration]
  · intro h1 h2 h3 h4 h5
    have e1 : q ≠ 1/8 := fun h => h1 (by rw [h]; norm_num)
    have e2 : q ≠ 1/4 := fun h => h2 (by rw [h]; norm_num)
    have e3 : q ≠ 1/2 := fun h => h3 (by rw [h]; norm_num)
    simp only [normalizeDuration]
    rw [if_neg e1, if_neg e2, if_neg e3, if_neg h4, if_neg h5]

/-- Witness for C3 at the unmapped numeric duration 3. -/
theorem C3_duration_table_witness :
    normalizeDuration (.num 0.125) = .str "32" ∧
    normalizeDuration (.num 3) = .str "4" :=
  ⟨(C3_duration_table 3).1,
   (C3_duration_table 3).2.2.2.2.2 (by norm_num) (by norm_num)
     (by norm_num) (by norm_num) (by norm_num)⟩

/-- C6: the `time`→`startTime` aliasing pass: when `time` is present and
`startTime` absent, the value of `time` is copied into `startTime` and
`time` is removed; when `startTime` is present the note is unchanged
(`startTime` wins), and the wait computation never reads `time`. -/
theorem C6_time_alias (note : MidiNote) (tv s : ℚ) :
    (note.time = some tv → note.startTime = none →
      normalizeNoteTime note =
        { note with startTime := some tv, time := none }) ∧
    (note.startTime = some s → normalizeNoteTime note = note) ∧
    (∀ bpm, noteWait bpm { note with time := none } = noteWait bpm note) := by
  refine ⟨?_, ?_, ?_⟩
  · intro h1 h2
    simp [normalizeNoteTime, h1, h2]
  · intro h
    cases hnt : note.time <;> simp [normalizeNoteTime, hnt, h]
  · intro bpm
    simp [noteWait]

/-- Witness for C6: the legacy note gains `startTime := 2` and loses
`time`; the note with both aliases is left unchanged. -/
theorem C6_time_alias_witness :
    normalizeNoteTime noteLegacy =
      { noteLegacy with startTime := some 2, time := none } ∧
    normalizeNoteTime noteBothAliases = noteBothAliases :=
  ⟨(C6_time_alias noteLegacy 2 0).1 rfl rfl,
   (C6_time_alias noteBothAliases 0 5).2.1 rfl⟩

/-- C9: when both `beat` and `startTime` are present, the wait offset
comes from the beat formula, and the startTime value is ignored
(removing it does not change the wait). -/
theorem C9_beat_precedence (v b s : ℚ) (note : MidiNote)
    (hb : note.beat = some b) (hs : note.startTime = some s) :
    noteWait (some v) note = convertBeatToWait b v ∧
    noteWait (some v) { note with startTime := none } =
      noteWait (some v) note := by
  constructor
  · simp [noteWait, hb]
  · simp [noteWait, hb]

/-- Witness for C9 at beat 2, startTime 7, bpm 100. -/
theorem C9_beat_precedence_witness :
    noteWait (some 100) noteBoth = convertBeatToWait 2 100 ∧
    noteWait (some 100) { noteBoth with startTime := none } =
      noteWait (some 100) noteBoth :=
  C9_beat_precedence 100 2 7 noteBoth rfl rfl

/-- C10: `noteToMidiNumber` is the identity on every pitch, numeric or
string: symbolic note names are passed through unresolved. -/
theorem C10_pitch_identity (p : Pitch) : noteToMidiNumber p = p := by
  cases p <;> rfl

/-- The JS `% 16` of a nonnegative integer lies in [0, 15]. -/
lemma jsMod_16_bound (a : ℤ) (ha : 0 ≤ a) :
    0 ≤ jsMod a 16 ∧ jsMod a 16 ≤ 15 := by
  unfold jsMod
  refine ⟨Int.tmod_nonneg 16 ha, ?_⟩
  have h := Int.tmod_lt_of_pos a (b := 16) (by decide)
  omega

/-- A note whose `channel` field is the negative integer -1. -/
def noteNegChannel : MidiNote :=
  { pitch := .num 60, beat := none, startTime := none, time := none,
    duration := .str "4", velocity := none, channel := some (-1) }

/-- C5 counterexample: with input channel -1 the channel handed to the
encoder is -1 (JS `%` keeps the dividend's sign), which is outside
[0, 15]. -/
theorem C5_channel_counterexample :
    noteChannel 0 noteNegChannel = -1 ∧
    ¬ (0 ≤ noteChannel 0 noteNegChannel ∧
        noteChannel 0 noteNegChannel ≤ 15) := by
  decide

/-- C5 (amended): for every note whose input channel, when present, is a
nonnegative integer, and every nonnegative track index, every channel
carried by an event built for the track lies in [0, 15]. -/
theorem C5_channel_bound (c : MidiComposition) (i : ℤ) (t : MidiTrack)
    (hi : 0 ≤ i)
    (hch : ∀ note ∈ t.notes, ∀ ch, note.channel = some ch → 0 ≤ ch) :
    ∀ e ∈ buildTrack c i t, ∀ ch, eventChannel e = some ch →
      0 ≤ ch ∧ ch ≤ 15 := by
  intro e he ch hech
  have hidx := jsMod_16_bound i hi
  unfold buildTrack at he
  rcases List.mem_append.1 he with h1 | hC
  · rcases List.mem_append.1 h1 with h2 | hB
    · rcases List.mem_append.1 h2 with hA | hMeta
      · cases hname : t.name with
        | some n =>
            rw [hname] at hA
            simp at hA
            subst hA
            simp [eventChannel] at hech
        | none =>
            rw [hname] at hA
            simp at hA
      · rcases List.mem_cons.1 hMeta with rfl | hMeta2
        · simp [eventChannel] at hech
        · rcases List.mem_cons.1 hMeta2 with rfl | hnil
          · simp [eventChannel] at hech
          · simp at hnil
    · cases hins : t.instrument with
      | some ins =>
          rw [hins] at hB
          simp at hB
          subst hB
          simp [eventChannel] at hech
          omega
      | none =>
          rw [hins] at hB
          simp at hB
  · obtain ⟨note, hnote, rfl⟩ := List.mem_map.1 hC
    simp [buildNoteEvent, eventChannel] at hech
    subst hech
    cases hc : note.channel with
    | some ch0 =>
        have h0 : 0 ≤ ch0 := hch note hnote ch0 hc
        have hb := jsMod_16_bound ch0 h0
        simp [noteChannel, hc]
        omega
    | none =>
        simp [noteChannel, hc]
        omega

/-- A track carrying only an instrument, used to witness C5. -/
def trackInstr : MidiTrack :=
  { name := none, instrument := some 5, notes := [] }

/-- A composition with bpm 120 and the single track `trackInstr`. -/
def compInstr : MidiComposition :=
  { bpm := some 120, tempo := none, timeSignature := none,
    tracks := [trackInstr] }

/-- Witness for the amended C5: the program-change channel of track 0 of
`compInstr` is in [0, 15]. -/
theorem C5_channel_bound_witness :
    0 ≤ jsMod 0 16 ∧ jsMod 0 16 ≤ 15 :=
  C5_channel_bound compInstr 0 trackInstr (by decide)
    (by intro note hnote; simp [trackInstr] at hnote)
    (TrackEvent.programChange 5 (jsMod 0 16))
    (by decide)
    (jsMod 0 16) rfl

/-- A track with one startTime-indexed note and no name/instrument. -/
def trackPlain : MidiTrack :=
  { name := none, instrument := none,
    notes := [{ pitch := .num 60, beat := none, startTime := none,
                time := none, duration := .str "4", velocity := none,
                channel := none }] }

/-- A composition with neither `bpm` nor `tempo` present. -/
def compNoBpm : MidiComposition :=
  { bpm := none, tempo := none, timeSignature := none,
    tracks := [trackPlain] }

/-- A concrete process environment. -/
def envHome : Env :=
  { home := some "/home/u", userProfile := none, tmpdir := "/tmp",
    existingDirs := [] }

/-- C4 counterexample: on a composition with neither `bpm` nor `tempo`,
`createMidiFile` does not fail — it proceeds and emits a tempo event
with the substitute tempo 120 (from `bpm || tempo || 120`). -/
theorem C4_no_bpm_counterexample :
    resolvedTempo compNoBpm = 120 ∧
    (createMidiFile envHome "t" compNoBpm "/out.mid").tracks =
      [[TrackEvent.setTempo 120, TrackEvent.timeSig 4 4,
        TrackEvent.noteEvent (.num 60) (.str "4") 100 0 "T0"]] := by
  have h0 : jsRound (numOrElse none 0 * (1/2)) = 0 := by
    norm_num [jsRound, numOrElse]
  have hw : noteWait none
      { pitch := .num 60, beat := none, startTime := none, time := none,
        duration := .str "4", velocity := none, channel := none } = "T0" := by
    simp only [noteWait]
    rw [h0]
    rfl
  have hmod : jsMod 0 16 = 0 := by decide
  constructor
  · rfl
  · simp [createMidiFile, buildTracks, compNoBpm, trackPlain, buildTrack,
      buildNoteEvent, resolvedTempo, resolvedTimeSignature, numOrElse,
      noteVelocity, noteChannel, noteToMidiNumber, hmod, hw]

/-- C4 (amended): the operation never fails over a missing or
non-positive tempo.  When `bpm` and `tempo` are both absent or zero the
resolved tempo is the substitute 120; a nonzero (even negative) `bpm` is
used as-is; and every built track carries a tempo event with the
resolved tempo. -/
theorem C4_substitute_tempo (c : MidiComposition) (i : ℤ) (t : MidiTrack)
    (b : ℚ) :
    ((c.bpm = none ∨ c.bpm = some 0) →
      (c.tempo = none ∨ c.tempo = some 0) → resolvedTempo c = 120) ∧
    (c.bpm = some b → b ≠ 0 → resolvedTempo c = b) ∧
    TrackEvent.setTempo (resolvedTempo c) ∈ buildTrack c i t := by
  refine ⟨?_, ?_, ?_⟩
  · intro hb ht
    rcases hb with hb | hb <;> rcases ht with ht | ht <;>
      simp [resolvedTempo, numOrElse, hb, ht]
  · intro hb hbne
    simp [resolvedTempo, numOrElse, hb, hbne]
  · unfold buildTrack
    refine List.mem_append.2 (Or.inl ?_)
    refine List.mem_append.2 (Or.inl ?_)
    exact List.mem_append.2 (Or.inr (List.mem_cons_self _ _))

/-- A composition whose `bpm` is the negative number -5. -/
def compNegBpm : MidiComposition :=
  { bpm := some (-5), tempo := none, timeSignature := none,
    tracks := [trackPlain] }

/-- Witness for the amended C4: no tempo at all resolves to 120, a
negative tempo of -5 is used as-is, and the tempo event is emitted. -/
theorem C4_substitute_tempo_witness :
    resolvedTempo compNoBpm = 120 ∧
    resolvedTempo compNegBpm = -5 ∧
    TrackEvent.setTempo (resolvedTempo compNoBpm) ∈
      buildTrack compNoBpm 0 trackPlain :=
  ⟨(C4_substitute_tempo compNoBpm 0 trackPlain 0).1 (Or.inl rfl)
      (Or.inl rfl),
   (C4_substitute_tempo compNegBpm 0 trackPlain (-5)).2.1 rfl
      (by norm_num),
   (C4_substitute_tempo compNoBpm 0 trackPlain 0).2.2⟩

/-- C8: the event lists handed to the byte encoder are a pure function
of the composition alone: two runs of `createMidiFile` on the same
composition, under arbitrary (and arbitrarily different) process
environments, titles and output paths, produce identical track event
lists. -/
theorem C8_deterministic_encoding (env1 env2 : Env) (t1 t2 : String)
    (c : MidiComposition) (out1 out2 : String) :
    (createMidiFile env1 t1 c out1).tracks =
      (createMidiFile env2 t2 c out2).tracks := rfl

/-- A list ending in a non-slash character is unchanged by
`dropTrailingSlashes`. -/
lemma dropTrailingSlashes_of_last (l1 l2 : List Char) (hne : l2 ≠ [])
    (h : ∀ c ∈ l2, c ≠ '/') :
    dropTrailingSlashes (l1 ++ l2) = l1 ++ l2 := by
  cases hrev : l2.reverse with
  | nil =>
      exact absurd (by simpa using congrArg List.reverse hrev) hne
  | cons c t =>
      have hcmem : c ∈ l2 := by
        have hmr : c ∈ l2.reverse := by
          rw [hrev]; exact List.mem_cons_self c t
        simpa using hmr
      have hc : c ≠ '/' := h c hcmem
      have key : ((l1 ++ l2).reverse).dropWhile (· = '/') =
          (l1 ++ l2).reverse := by
        rw [List.reverse_append, hrev, List.cons_append,
          List.dropWhile_cons]
        simp [hc]
      unfold dropTrailingSlashes
      rw [key, List.reverse_reverse]

/-- `takeWhile (· ≠ '/')` of `l1 ++ '/' :: l2` is `l1` when `l1` holds
no slash. -/
lemma takeWhile_until_slash (l1 l2 : List Char)
    (h : ∀ c ∈ l1, c ≠ '/') :
    (l1 ++ '/' :: l2).takeWhile (· ≠ '/') = l1 := by
  induction l1 with
  | nil => simp [List.takeWhile_cons]
  | cons a t ih =>
      have ha : a ≠ '/' := h a (List.mem_cons_self a t)
      rw [List.cons_append, List.takeWhile_cons,
        ih fun c hc => h c (List.mem_cons_of_mem a hc)]
      have hcond : ((fun x => decide (x ≠ '/')) a = true) := by
        simp [ha]
      rw [if_pos hcond]

/-- The last component of `l1 ++ '/' :: l2` is `l2` when `l2` holds no
slash. -/
lemma lastComponent_append (l1 l2 : List Char)
    (h : ∀ c ∈ l2, c ≠ '/') :
    lastComponent (l1 ++ '/' :: l2) = l2 := by
  unfold lastComponent
  have key : ((l1 ++ '/' :: l2).reverse).takeWhile (· ≠ '/') =
      l2.reverse := by
    rw [List.reverse_append, List.reverse_cons, List.append_assoc,
      List.singleton_append]
    exact takeWhile_until_slash l2.reverse l1.reverse
      fun c hc => h c (by simpa using hc)
  rw [key, List.reverse_reverse]

/-- `basename` keeps only the part after the last `/`: any directory
prefix is discarded. -/
lemma basename_append (dir file : String) (hfile : file.data ≠ [])
    (h : ∀ c ∈ file.data, c ≠ '/') :
    basename (dir ++ "/" ++ file) = file := by
  unfold basename
  have hd : (dir ++ "/" ++ file).data =
      (dir.data ++ ['/']) ++ file.data := by
    rw [String.data_append, String.data_append]
  rw [hd, dropTrailingSlashes_of_last _ _ hfile h, List.append_assoc,
    List.singleton_append, lastComponent_append _ _ h]

/-- C7: an absolute output path is used verbatim with nothing created; a
relative path resolves to `<safeBaseDir>/midi-files/<basename>`, with
the `midi-files` directory created exactly when missing; a relative path
with a directory component keeps only its base name — the directory
component is discarded, not appended. -/
theorem C7_output_path_resolution (env : Env) (p dir file : String) :
    (isAbsolute p = true → resolveOutputPath env p = ([], p)) ∧
    (isAbsolute p = false →
      resolveOutputPath env p =
        ((if jsPathJoin (safeBaseDir env) "midi-files" ∈ env.existingDirs
          then []
          else [jsPathJoin (safeBaseDir env) "midi-files"]),
         jsPathJoin (jsPathJoin (safeBaseDir env) "midi-files")
           (basename p))) ∧
    (isAbsolute p = false → p = dir ++ "/" ++ file → file ≠ "" →
      (∀ c ∈ file.data, c ≠ '/') →
      (resolveOutputPath env p).2 =
        jsPathJoin (jsPathJoin (safeBaseDir env) "midi-files") file) := by
  refine ⟨?_, ?_, ?_⟩
  · intro habs
    simp [resolveOutputPath, habs]
  · intro hrel
    simp [resolveOutputPath, hrel]
  · intro hrel hp hne hns
    have hfd : file.data ≠ [] := by
      intro hd
      exact hne (String.ext hd)
    subst hp
    simp [resolveOutputPath, hrel, basename_append dir file hfd hns]

/-- Witness for C7: an absolute path passes through verbatim, and the
relative path "songs/tune.mid" lands at
`<safeBaseDir>/midi-files/tune.mid`, its directory component dropped. -/
theorem C7_output_path_resolution_witness :
    resolveOutputPath envHome "/abs/out.mid" = ([], "/abs/out.mid") ∧
    (resolveOutputPath envHome "songs/tune.mid").2 =
      jsPathJoin (jsPathJoin (safeBaseDir envHome) "midi-files")
        "tune.mid" :=
  ⟨(C7_output_path_resolution envHome "/abs/out.mid" "" "").1 rfl,
   (C7_output_path_resolution envHome "songs/tune.mid" "songs"
       "tune.mid").2.2 rfl rfl (by decide) (by decide)⟩

end MidiMcp
